import Mathlib

/-!
Verification of the transfr station-connectivity pipeline.

The definitions below are a shallow embedding of the repository's code:

* the SQL materialized-view chain of `views.sql` (`station_platform_ways`,
  `station_platform_nodes`, `platform_edges_indexed`, `station_ways_with_nodes`,
  `station_walkable_ways`, `station_pedestrian_ways_with_nodes`,
  `station_ways_with_nodes_plus_pedestrian`, `station_way_segments`) becomes a
  family of pure functions from a relational snapshot (`DB`) to lists of rows;
* the React components `JourneyResults.jsx` and `SearchBarDropDown`
  (`handleChange`) become pure render/transition functions;
* components whose code is not in the repository snapshot (the four-tier
  transfer-feasibility evaluator and the journey assembler) are modelled from
  the specification and the README's algorithm sketch; each such definition is
  marked `Modelled from the spec:` in its doc comment.

SQL semantics notes: `tags->>'k'` is `tagVal` (returning `none` for NULL);
`IN (...)` on a possibly-NULL value is `sqlIn` (NULL yields false);
`IS DISTINCT FROM 'private'` is inequality against `some "private"`;
`SELECT DISTINCT` and `UNION` deduplicate via `List.dedup`; a window
`lead(...) OVER (PARTITION BY way_id ORDER BY ord)` is embedded by grouping
the rows of each `way_id`, stably sorting them by `ord` and pairing
consecutive rows (`sortOrd`, `leadPairs`).
-/

namespace Transfr

/-- OSM tag set: association list of key/value pairs, first binding wins. -/
abbrev Tags := List (String × String)

/-- Embedding of the SQL accessor `tags->>'k'`: the value bound to key `k`,
`none` when the key is absent (SQL NULL). -/
def tagVal (t : Tags) (k : String) : Option String :=
  (t.find? (fun p => p.1 == k)).map (fun p => p.2)

/-- Embedding of the SQL predicate `tags ? 'k'` (hstore key-existence). -/
def hasKey (t : Tags) (k : String) : Bool :=
  (t.find? (fun p => p.1 == k)).isSome

/-- Embedding of `v IN ('a','b',...)` where `v` may be NULL: NULL is never IN. -/
def sqlIn (v : Option String) (l : List String) : Bool :=
  match v with
  | some s => l.contains s
  | none => false

/-- Row of `planet_osm_ways`: a way with its id, ordered node array and tags. -/
structure Way where
  id : Int
  nodes : List Int
  tags : Tags
deriving DecidableEq

/-- One entry of a relation's `members` jsonb array. -/
structure Member where
  ref : Int
  role : String
  mtype : String
deriving DecidableEq

/-- Row of `planet_osm_rels`: a relation with its id, tags and member list. -/
structure Rel where
  id : Int
  tags : Tags
  members : List Member
deriving DecidableEq

/-- The geospatial snapshot: the two base tables every view reads from. -/
structure DB where
  ways : List Way
  rels : List Rel
deriving DecidableEq

/-- Row shape of the view `station_platform_ways`. -/
structure SPWRow where
  relation_id : Int
  station_name : Option String
  way_ref : Int
  member_role : String
  member_type : String
deriving DecidableEq

/-- View 1 of `views.sql`, `station_platform_ways`: flattens every
`public_transport=stop_area` relation into one row per member. -/
def station_platform_ways (db : DB) : List SPWRow :=
  db.rels.flatMap (fun r =>
    if tagVal r.tags "type" = some "public_transport" ∧
        tagVal r.tags "public_transport" = some "stop_area" then
      r.members.map (fun m =>
        ⟨r.id, tagVal r.tags "name", m.ref, m.role, m.mtype⟩)
    else [])

/-- Row shape of the view `station_platform_nodes`. -/
structure SPNRow where
  relation_id : Int
  station_name : Option String
  node_id : Int
deriving DecidableEq

/-- View 2 of `views.sql`, `station_platform_nodes`: every node of a
`member_role='platform'`, `member_type='W'` member way, unnested. -/
def station_platform_nodes (db : DB) : List SPNRow :=
  (station_platform_ways db).flatMap (fun spw =>
    if spw.member_role = "platform" ∧ spw.member_type = "W" then
      (db.ways.filter (fun w => w.id = spw.way_ref)).flatMap (fun w =>
        w.nodes.map (fun n => ⟨spw.relation_id, spw.station_name, n⟩))
    else [])

/-- Row shape of the view `platform_edges_indexed`. -/
structure PEIRow where
  relation_id : Int
  station_name : Option String
  way_id : Int
  nodes : List Int
  tags : Tags
  edge_ref : Option String
deriving DecidableEq

/-- View 3 of `views.sql`, `platform_edges_indexed`: every
`railway=platform_edge` way paired with each DISTINCT station context whose
platform nodes its node array intersects (the `JOIN LATERAL`). -/
def platform_edges_indexed (db : DB) : List PEIRow :=
  db.ways.flatMap (fun w =>
    if tagVal w.tags "railway" = some "platform_edge" then
      ((((station_platform_nodes db).filter
            (fun spn => w.nodes.contains spn.node_id)).map
          (fun spn => (spn.relation_id, spn.station_name))).dedup).map
        (fun p => ⟨p.1, p.2, w.id, w.nodes, w.tags, tagVal w.tags "ref"⟩)
    else [])

/-- Row shape shared by `station_ways_with_nodes` and its derived views. -/
structure SWNRow where
  relation_id : Int
  station_name : Option String
  way_id : Int
  nodes : List Int
  tags : Tags
deriving DecidableEq

/-- View 4 of `views.sql`, `station_ways_with_nodes`: every direct
`member_type='W'` member way of a stop_area relation with its node array. -/
def station_ways_with_nodes (db : DB) : List SWNRow :=
  (station_platform_ways db).flatMap (fun spw =>
    if spw.member_type = "W" then
      (db.ways.filter (fun w => w.id = spw.way_ref)).map
        (fun w => ⟨spw.relation_id, spw.station_name, w.id, w.nodes, w.tags⟩)
    else [])

/-- The `highway` values of the walkable filter in `views.sql`. -/
def walkableHighway : List String :=
  ["footway", "steps", "corridor", "pedestrian", "path", "cycleway",
   "crossing", "elevator", "escalator", "platform", "service"]

/-- The WHERE clause of view 5 (`station_walkable_ways`) and of view 6's way
filter in `views.sql`: walkable highway, or platform railway, or a conveying
attribute, and access IS DISTINCT FROM 'private'. -/
def walkableTags (t : Tags) : Bool :=
  (sqlIn (tagVal t "highway") walkableHighway
      || sqlIn (tagVal t "railway") ["platform", "platform_edge"]
      || hasKey t "conveying")
    && !(tagVal t "access" == some "private")

/-- View 5 of `views.sql`, `station_walkable_ways`: member ways restricted to
the walkable classification. -/
def station_walkable_ways (db : DB) : List SWNRow :=
  (station_ways_with_nodes db).filter (fun r => walkableTags r.tags)

/-- View 6 of `views.sql`, `station_pedestrian_ways_with_nodes`: DISTINCT
walkable ways that share at least one node (`w.nodes && s.nodes`) with a
station's walkable member way; the row takes its station context from the
member way it overlaps. -/
def station_pedestrian_ways_with_nodes (db : DB) : List SWNRow :=
  (db.ways.flatMap (fun w =>
    if walkableTags w.tags then
      ((station_walkable_ways db).filter
          (fun s => w.nodes.any (fun n => s.nodes.contains n))).map
        (fun s => ⟨s.relation_id, s.station_name, w.id, w.nodes, w.tags⟩)
    else [])).dedup

/-- View 7 of `views.sql`, `station_ways_with_nodes_plus_pedestrian`: the
UNION (deduplicating) of walkable member ways and first-hop walkable ways. -/
def station_ways_with_nodes_plus_pedestrian (db : DB) : List SWNRow :=
  (station_walkable_ways db ++ station_pedestrian_ways_with_nodes db).dedup

/-- Row of the CTE `ordered` in view 8: one way-node occurrence with its
1-based ordinal (`unnest(s.nodes) WITH ORDINALITY`). -/
structure OrdRow where
  relation_id : Int
  station_name : Option String
  way_id : Int
  node_id : Int
  ord : Nat
deriving DecidableEq

/-- The CTE `ordered` of `station_way_segments`: every way of the union view
unnested into (node, ordinal) rows. -/
def orderedRows (db : DB) : List OrdRow :=
  (station_ways_with_nodes_plus_pedestrian db).flatMap (fun s =>
    s.nodes.enum.map (fun p =>
      ⟨s.relation_id, s.station_name, s.way_id, p.2, p.1 + 1⟩))

/-- Row shape of the view `station_way_segments`. -/
structure SegRow where
  relation_id : Int
  station_name : Option String
  way_id : Int
  node_from : Int
  node_to : Int
deriving DecidableEq

/-- Stable insertion of an `ordered` row into a list sorted by `ord`
(placed before the first row of greater-or-equal ordinal already present
later in scan order, i.e. a stable sort step). -/
def insOrd (x : OrdRow) : List OrdRow → List OrdRow
  | [] => [x]
  | y :: ys => if y.ord < x.ord then y :: insOrd x ys else x :: y :: ys

/-- Stable sort of a window partition by `ord`, resolving the tie between
rows of equal ordinal by their position in the row stream (the embedding's
fixed choice for SQL's unspecified peer order). -/
def sortOrd : List OrdRow → List OrdRow
  | [] => []
  | x :: xs => insOrd x (sortOrd xs)

/-- The `lead(node_id)` window step: each row paired with the `node_id` of
the next row of its partition; the final row (whose lead is NULL) is dropped,
matching `WHERE node_to IS NOT NULL`. -/
def leadPairs : List OrdRow → List SegRow
  | [] => []
  | [_] => []
  | r :: r2 :: rest =>
      ⟨r.relation_id, r.station_name, r.way_id, r.node_id, r2.node_id⟩ ::
        leadPairs (r2 :: rest)

/-- The window computation of view 8 applied to an explicit stream of
`ordered` rows. SQL leaves unspecified the order in which base rows reach
the window sort, and rows of equal `(way_id, ord)` are peers whose relative
order the sort does not fix; with the stable `sortOrd`, the stream order IS
the peer order, so distinct streams over the same row multiset model the
distinct orders a legitimate execution may use. -/
def station_way_segments_stream (rows : List OrdRow) : List SegRow :=
  ((rows.map (fun r => r.way_id)).dedup).flatMap
    (fun w => leadPairs (sortOrd (rows.filter (fun r => r.way_id = w))))

/-- View 8 of `views.sql`, `station_way_segments`: the window function
`lead(node_id) OVER (PARTITION BY way_id ORDER BY ord)` applied to the
`ordered` rows — note the partition key is `way_id` alone, exactly as in
the source; this canonical build reads the rows in view order. -/
def station_way_segments (db : DB) : List SegRow :=
  station_way_segments_stream (orderedRows db)

/-- Nodes of one station's walkable graph: every node referenced by a way of
the union view restricted to the station's relation. -/
def stationNodes (db : DB) (rid : Int) : List Int :=
  (((station_ways_with_nodes_plus_pedestrian db).filter
      (fun r => r.relation_id = rid)).flatMap (fun r => r.nodes)).dedup

/-- Segments of one station's walkable graph: the segment view restricted to
the station's relation (the per-relation filter of `pathfind`'s query). -/
def stationSegments (db : DB) (rid : Int) : List SegRow :=
  (station_way_segments db).filter (fun r => r.relation_id = rid)

/-- A station's WalkableGraph: node set plus consecutive-pair segments. -/
structure WalkableGraph where
  nodes : List Int
  segs : List SegRow
deriving DecidableEq

/-- Graph construction for one station from the snapshot. -/
def stationGraph (db : DB) (rid : Int) : WalkableGraph :=
  ⟨stationNodes db rid, stationSegments db rid⟩

/-- Feasibility verdict of the Transfer Feasibility Evaluator. -/
inductive Verdict where
  | FEASIBLE
  | MARGINAL
  | INFEASIBLE
deriving DecidableEq

/-- Modelled from the spec: the policy constants of §4.3 (the minimum
same-platform dwell, the safety buffer, the Tier-4 conservative default
distance, and a walking-speed factor in deciseconds per metre), which the
spec says are configuration; the evaluator code itself is not in the
repository snapshot. -/
structure FeasConfig where
  minSamePlatformS : Nat
  safetyBufferS : Nat
  tier4DefaultM : Nat
  deciSecondsPerMeter : Nat
deriving DecidableEq

/-- Modelled from the spec: distance-to-time conversion at the configured
walking speed. -/
def timeOfDist (cfg : FeasConfig) (d : Nat) : Nat :=
  d * cfg.deciSecondsPerMeter / 10

/-- Modelled from the spec: verdict from a computed time `t` and the window
`w`; MARGINAL when `t` is within the safety buffer of `w`. -/
def verdictOf (cfg : FeasConfig) (t : Nat) (w : Int) : Verdict :=
  if (t : Int) + cfg.safetyBufferS ≤ w then .FEASIBLE
  else if (t : Int) ≤ w + cfg.safetyBufferS then .MARGINAL
  else .INFEASIBLE

/-- One undirected expansion step of the Path Search Engine over the segment
edges: all neighbours of the frontier. -/
def adjacentNodes (segs : List SegRow) (frontier : List Int) : List Int :=
  segs.filterMap (fun e =>
      if frontier.contains e.node_from then some e.node_to else none)
    ++ segs.filterMap (fun e =>
      if frontier.contains e.node_to then some e.node_from else none)

/-- Frontier after one breadth-first expansion, deduplicated. -/
def reachExpand (segs : List SegRow) (s : List Int) : List Int :=
  (s ++ adjacentNodes segs s).dedup

/-- Modelled from the spec: fuel-bounded breadth-first search (the Path
Search Engine is not in the repository snapshot; §4.2 mandates a bounded
search that returns UNREACHABLE rather than blocking). Returns the hop count
at which the destination set is first met, or `none`. -/
def bfsAux (segs : List SegRow) (dst : List Int) :
    Nat → List Int → Nat → Option Nat
  | 0, _, _ => none
  | fuel + 1, frontier, d =>
      if frontier.any (fun n => dst.contains n) then some d
      else bfsAux segs dst fuel (reachExpand segs frontier) (d + 1)

/-- Modelled from the spec: multi-source/multi-sink shortest-path distance
between two anchor sets over a station graph; anchors outside the graph's
node set are discarded, and empty anchor sets are UNREACHABLE (`none`). -/
def pathDist (g : WalkableGraph) (src dst : List Int) : Option Nat :=
  let s := src.filter (fun n => g.nodes.contains n)
  let t := dst.filter (fun n => g.nodes.contains n)
  if s.isEmpty || t.isEmpty then none
  else bfsAux g.segs t (g.nodes.length + 1) s 0

/-- Modelled from the spec: the Tier-2 adjoining-buffer-stop condition — the
two platforms' anchor (platform-edge) node sets share at least one node in
the graph. -/
def adjoining (g : WalkableGraph) (aA aD : List Int) : Bool :=
  aA.any (fun n => aD.contains n && g.nodes.contains n)

/-- Result of one feasibility evaluation: the tier used, the verdict, and
the estimated time. -/
structure FeasResult where
  tier : Nat
  verdict : Verdict
  timeS : Nat
deriving DecidableEq

/-- Modelled from the spec: the four-tier Transfer Feasibility Evaluator of
§4.3 and the README's algorithm (its code is not in the repository
snapshot). Tiers are tried in order 1→4 and the first whose condition
applies wins: same platform, adjoining buffer stop, connector path, then
the conservative Tier-4 fallback, which always resolves. -/
def evalTransfer (cfg : FeasConfig) (g : WalkableGraph) (pa pd : String)
    (aA aD : List Int) (w : Int) : FeasResult :=
  if pa = pd then
    ⟨1, if (cfg.minSamePlatformS : Int) ≤ w then .FEASIBLE else .INFEASIBLE,
      cfg.minSamePlatformS⟩
  else if adjoining g aA aD then
    let t := timeOfDist cfg ((pathDist g aA aD).getD 1)
    ⟨2, verdictOf cfg t w, t⟩
  else
    match pathDist g aA aD with
    | some d =>
        let t := timeOfDist cfg d
        ⟨3, verdictOf cfg t w, t⟩
    | none =>
        let t := timeOfDist cfg cfg.tier4DefaultM
        ⟨4, verdictOf cfg t w, t⟩

/-- A candidate journey as the Journey Assembler sees it: total duration,
change count, and the feasibility verdict of each transfer point. -/
structure Journey where
  durationS : Nat
  numChanges : Nat
  transfers : List Verdict
deriving DecidableEq

/-- The assembler's ranking order: ascending total duration, ties broken by
fewer changes. -/
def journeyLE (a b : Journey) : Prop :=
  a.durationS < b.durationS ∨
    (a.durationS = b.durationS ∧ a.numChanges ≤ b.numChanges)

instance : DecidableRel journeyLE := fun a b => by
  unfold journeyLE; exact inferInstance

/-- Modelled from the spec: the Journey Assembler's filter-and-rank step of
§4.4 (its code is not in the repository snapshot): itineraries containing
any INFEASIBLE transfer are dropped, the survivors are sorted ascending by
total duration with ties broken by fewer changes. -/
def assembleJourneys (cands : List Journey) : List Journey :=
  List.insertionSort journeyLE
    (cands.filter (fun j => !(j.transfers.contains .INFEASIBLE)))

/-- The possible render outcomes of the `JourneyResults` component. -/
inductive Render where
  | loadingView
  | nothingView
  | errorView (msg : String)
  | emptyView
  | listView (journeys : List Journey)
deriving DecidableEq

/-- JavaScript truthiness of the `data.error` field: absent and the empty
string are falsy. -/
def jsTruthyStr (o : Option String) : Bool :=
  match o with
  | none => false
  | some s => s ≠ ""

/-- The journey response object consumed by `JourneyResults`: an optional
`error` string and an optional `journeys` array. -/
structure RespData where
  error : Option String
  journeys : Option (List Journey)
deriving DecidableEq

/-- Embedding of `JourneyResults.jsx`: loading first, then null data, then
the error branch, then the `No journeys found.` branch on an empty
`data.journeys || []`, else the journey list. -/
def renderJourneyResults (loading : Bool) (data : Option RespData) : Render :=
  if loading then .loadingView
  else
    match data with
    | none => .nothingView
    | some d =>
        if jsTruthyStr d.error then .errorView (d.error.getD "")
        else if (d.journeys.getD []).isEmpty then .emptyView
        else .listView (d.journeys.getD [])

/-- A station row of the autocomplete response. -/
structure Station where
  id : Nat
  name : String
deriving DecidableEq

/-- Component state of `SearchBarDropDown` read by `handleChange`. -/
structure AcState where
  showDropdown : Bool
  stations : List Station
deriving DecidableEq

/-- Outcome of the autocomplete fetch: an ok JSON station list, a non-ok
HTTP response, or a thrown network error. -/
inductive FetchOutcome where
  | ok (data : List Station)
  | httpError
  | netError
deriving DecidableEq

/-- Observable effects of one `handleChange` call: the resulting dropdown
visibility and station list, whether a request was issued, and whether the
completion callback ran. -/
structure AcEffects where
  showDropdown : Bool
  stations : List Station
  requestIssued : Bool
  completionCalled : Bool
deriving DecidableEq

/-- Embedding of `handleChange` in `SearchBarDropDown`: inputs shorter than
2 characters hide the dropdown and skip the fetch; on an ok response the
dropdown shows exactly when the list is non-empty; a non-ok response or a
thrown fetch leaves the dropdown state untouched; the completion callback
runs on every path. -/
def handleChange (prev : AcState) (value : String) (resp : FetchOutcome) :
    AcEffects :=
  if value.length < 2 then ⟨false, prev.stations, false, true⟩
  else
    match resp with
    | .ok data => ⟨decide (0 < data.length), data, true, true⟩
    | .httpError => ⟨prev.showDropdown, prev.stations, true, true⟩
    | .netError => ⟨prev.showDropdown, prev.stations, true, true⟩

/-- The walkable classification exactly as the specification words it:
highway in the walkable set, OR railway platform/platform_edge, OR a
conveying attribute, AND access not private. Stated independently of the
SQL boolean expression so the two can be compared. -/
def claimedWalkable (t : Tags) : Prop :=
  ((∃ h ∈ walkableHighway, tagVal t "highway" = some h) ∨
      tagVal t "railway" = some "platform" ∨
      tagVal t "railway" = some "platform_edge" ∨
      hasKey t "conveying" = true) ∧
    tagVal t "access" ≠ some "private"

/-- Way `wid` is a direct `type='W'` member of relation `rid`. -/
def memberWayOf (db : DB) (rid wid : Int) : Prop :=
  ∃ spw ∈ station_platform_ways db,
    spw.relation_id = rid ∧ spw.member_type = "W" ∧ spw.way_ref = wid

/-- Way `wid` appears in the one-hop expansion view for station `rid`. -/
def inPedView (db : DB) (rid wid : Int) : Prop :=
  ∃ row ∈ station_pedestrian_ways_with_nodes db,
    row.relation_id = rid ∧ row.way_id = wid

/-- The one-hop expansion exactly as the claim words it: a way that is NOT
a member of the station's relation, shares at least one node with one of
its member ways, and matches the walkable classification. -/
def claimedOneHop (db : DB) (rid wid : Int) : Prop :=
  ∃ w ∈ db.ways, w.id = wid ∧ ¬ memberWayOf db rid wid ∧
    (∃ m ∈ station_ways_with_nodes db,
      m.relation_id = rid ∧ ∃ n ∈ w.nodes, n ∈ m.nodes) ∧
    claimedWalkable w.tags

/-- Node `n` belongs to one of station `rid`'s platform-role member ways,
as the C4 claim words it. -/
def platformNodeOf (db : DB) (rid n : Int) : Prop :=
  ∃ spw ∈ station_platform_ways db,
    spw.relation_id = rid ∧ spw.member_role = "platform" ∧
      spw.member_type = "W" ∧
      ∃ w ∈ db.ways, w.id = spw.way_ref ∧ n ∈ w.nodes

/-- Modelled from the spec: the Tier-2 adjoining relationship between two
platform-edge ways — they share at least one node. -/
def adjoins (e1 e2 : Way) : Prop :=
  ∃ n ∈ e1.nodes, n ∈ e2.nodes

/-- Snapshot for the C1 witness: one stop_area with a walkable member way. -/
def exDbC1 : DB :=
  ⟨[⟨300, [1, 2], [("highway", "footway")]⟩],
   [⟨3, [("type", "public_transport"), ("public_transport", "stop_area")],
      [⟨300, "platform", "W"⟩]⟩]⟩

/-- The member-way row of `exDbC1`, as it appears in the views. -/
def rowC1 : SWNRow := ⟨3, none, 300, [1, 2], [("highway", "footway")]⟩

/-- Snapshot exhibiting the C2 window-partition defect: one walkable way
(id 100, nodes [1, 2]) that is a member of two distinct stop_area
relations (ids 1 and 2). -/
def exDbC2 : DB :=
  ⟨[⟨100, [1, 2], [("highway", "footway")]⟩],
   [⟨1, [("type", "public_transport"), ("public_transport", "stop_area")],
      [⟨100, "platform", "W"⟩]⟩,
    ⟨2, [("type", "public_transport"), ("public_transport", "stop_area")],
      [⟨100, "platform", "W"⟩]⟩]⟩

/-- Snapshot for C3: station 7 has a walkable member way 200 and a
non-walkable (rail) member way 201; way 202 is walkable, not a member, and
shares a node only with the non-walkable member 201. -/
def exDbC3 : DB :=
  ⟨[⟨200, [1, 2], [("highway", "footway")]⟩,
    ⟨201, [2, 3], [("railway", "rail")]⟩,
    ⟨202, [3, 4], [("highway", "footway")]⟩],
   [⟨7, [("type", "public_transport"), ("public_transport", "stop_area")],
      [⟨200, "platform", "W"⟩, ⟨201, "", "W"⟩]⟩]⟩

/-- Snapshot for C6: stop_area relation 5 whose only member is a node
(type 'N'), so its member-way set is empty while its member set is not. -/
def exDbC6 : DB :=
  ⟨[⟨400, [9, 10], [("highway", "footway")]⟩],
   [⟨5, [("type", "public_transport"), ("public_transport", "stop_area")],
      [⟨999, "stop", "N"⟩]⟩]⟩

/-- A concrete policy configuration for evaluator witnesses. -/
def cfgC6 : FeasConfig := ⟨120, 30, 500, 8⟩

/-- Snapshot for the C9 witness. -/
def exDbC9 : DB :=
  ⟨[⟨500, [1, 2, 3], [("highway", "steps")]⟩],
   [⟨8, [("type", "public_transport"), ("public_transport", "stop_area")],
      [⟨500, "platform", "W"⟩]⟩]⟩

/-- A second legitimate scan order of `exDbC2`'s ordered rows: the same row
multiset with station 2's block first. -/
def rowsC9b : List OrdRow :=
  [⟨2, none, 100, 1, 1⟩, ⟨2, none, 100, 2, 2⟩,
   ⟨1, none, 100, 1, 1⟩, ⟨1, none, 100, 2, 2⟩]

/-- A permuted scan order of `exDbC9`'s ordered rows for the C9 witness. -/
def rowsC9w : List OrdRow :=
  [⟨8, none, 500, 3, 3⟩, ⟨8, none, 500, 2, 2⟩, ⟨8, none, 500, 1, 1⟩]

/-- Candidate list for the C7 witness: an infeasible itinerary between two
feasible ones, out of duration order. -/
def candsC7 : List Journey :=
  [⟨3600, 1, [.FEASIBLE]⟩, ⟨1800, 2, [.INFEASIBLE, .FEASIBLE]⟩,
   ⟨1800, 0, [.MARGINAL]⟩]

theorem sqlIn_iff (v : Option String) (l : List String) :
    sqlIn v l = true ↔ ∃ s ∈ l, v = some s := by
  cases v with
  | none => simp [sqlIn]
  | some s => simp [sqlIn]

theorem walkableTags_iff (t : Tags) :
    walkableTags t = true ↔ claimedWalkable t := by
  unfold walkableTags claimedWalkable
  simp [sqlIn_iff, Bool.and_eq_true, Bool.or_eq_true]
  intro _
  rw [or_assoc, or_assoc]

theorem mem_swn_spw {db : DB} {row : SWNRow}
    (h : row ∈ station_ways_with_nodes db) :
    ∃ spw ∈ station_platform_ways db,
      spw.relation_id = row.relation_id ∧ spw.member_type = "W" := by
  unfold station_ways_with_nodes at h
  rw [List.mem_flatMap] at h
  obtain ⟨spw, hspw, hrow⟩ := h
  by_cases hW : spw.member_type = "W"
  · rw [if_pos hW, List.mem_map] at hrow
    obtain ⟨w, _, hw⟩ := hrow
    exact ⟨spw, hspw, by rw [← hw], hW⟩
  · rw [if_neg hW] at hrow
    simp at hrow

theorem mem_ped_walkable {db : DB} {row : SWNRow}
    (h : row ∈ station_pedestrian_ways_with_nodes db) :
    ∃ s ∈ station_walkable_ways db, s.relation_id = row.relation_id := by
  unfold station_pedestrian_ways_with_nodes at h
  rw [List.mem_dedup, List.mem_flatMap] at h
  obtain ⟨w, _, hrow⟩ := h
  split at hrow
  · rw [List.mem_map] at hrow
    obtain ⟨s, hs, hw⟩ := hrow
    exact ⟨s, (List.mem_filter.mp hs).1, by rw [← hw]⟩
  · simp at hrow

theorem mem_plus_spw {db : DB} {row : SWNRow}
    (h : row ∈ station_ways_with_nodes_plus_pedestrian db) :
    ∃ spw ∈ station_platform_ways db,
      spw.relation_id = row.relation_id ∧ spw.member_type = "W" := by
  unfold station_ways_with_nodes_plus_pedestrian at h
  rw [List.mem_dedup, List.mem_append] at h
  rcases h with h | h
  · exact mem_swn_spw (List.mem_filter.mp h).1
  · obtain ⟨s, hs, hrel⟩ := mem_ped_walkable h
    obtain ⟨spw, hspw, hrel2, hW⟩ := mem_swn_spw (List.mem_filter.mp hs).1
    exact ⟨spw, hspw, by rw [hrel2, hrel], hW⟩

theorem mem_insOrd {x a : OrdRow} {l : List OrdRow} :
    x ∈ insOrd a l ↔ x = a ∨ x ∈ l := by
  induction l with
  | nil => simp [insOrd]
  | cons y ys ih =>
      unfold insOrd
      split
      · simp only [List.mem_cons, ih]
        tauto
      · simp only [List.mem_cons]

theorem mem_sortOrd {x : OrdRow} {l : List OrdRow} :
    x ∈ sortOrd l ↔ x ∈ l := by
  induction l with
  | nil => simp [sortOrd]
  | cons y ys ih => simp [sortOrd, mem_insOrd, ih]

theorem insOrd_perm (x : OrdRow) (l : List OrdRow) :
    (insOrd x l).Perm (x :: l) := by
  induction l with
  | nil => exact List.Perm.refl _
  | cons y ys ih =>
      unfold insOrd
      split
      · exact (ih.cons y).trans (List.Perm.swap x y ys)
      · exact List.Perm.refl _

theorem sortOrd_perm (l : List OrdRow) : (sortOrd l).Perm l := by
  induction l with
  | nil => exact List.Perm.refl _
  | cons x xs ih =>
      unfold sortOrd
      exact (insOrd_perm x (sortOrd xs)).trans (ih.cons x)

theorem insOrd_sorted {x : OrdRow} : ∀ {l : List OrdRow},
    l.Pairwise (fun a b => a.ord ≤ b.ord) →
      (insOrd x l).Pairwise (fun a b => a.ord ≤ b.ord) := by
  intro l
  induction l with
  | nil =>
      intro _
      simp [insOrd]
  | cons y ys ih =>
      intro h
      obtain ⟨hy, hys⟩ := List.pairwise_cons.mp h
      unfold insOrd
      by_cases hyx : y.ord < x.ord
      · rw [if_pos hyx, List.pairwise_cons]
        refine ⟨?_, ih hys⟩
        intro a ha
        rcases mem_insOrd.mp ha with rfl | ha2
        · exact Nat.le_of_lt hyx
        · exact hy a ha2
      · rw [if_neg hyx, List.pairwise_cons]
        refine ⟨?_, h⟩
        intro a ha
        rcases List.mem_cons.mp ha with rfl | ha2
        · exact Nat.le_of_not_lt hyx
        · exact Nat.le_trans (Nat.le_of_not_lt hyx) (hy a ha2)

theorem sortOrd_sorted (l : List OrdRow) :
    (sortOrd l).Pairwise (fun a b => a.ord ≤ b.ord) := by
  induction l with
  | nil => simp [sortOrd]
  | cons x xs ih =>
      unfold sortOrd
      exact insOrd_sorted ih

theorem eq_of_perm_sorted_distinct : ∀ {l1 l2 : List OrdRow},
    l1.Perm l2 → l1.Pairwise (fun a b => a.ord ≤ b.ord) →
      l2.Pairwise (fun a b => a.ord ≤ b.ord) →
      (l1.map (fun r => r.ord)).Nodup → l1 = l2 := by
  intro l1
  induction l1 with
  | nil =>
      intro l2 hp _ _ _
      exact hp.symm.eq_nil.symm
  | cons a t1 ih =>
      intro l2 hp hs1 hs2 hnd
      cases l2 with
      | nil => exact absurd hp.eq_nil (by simp)
      | cons b t2 =>
          have hab : a ∈ b :: t2 := hp.subset (List.mem_cons_self a t1)
          have hba : b ∈ a :: t1 := hp.symm.subset (List.mem_cons_self b t2)
          have h1 := List.pairwise_cons.mp hs1
          have h2 := List.pairwise_cons.mp hs2
          have hord : a.ord = b.ord := by
            rcases List.mem_cons.mp hab with rfl | ha2
            · rfl
            · rcases List.mem_cons.mp hba with h | hb2
              · rw [h]
              · exact Nat.le_antisymm (h1.1 b hb2) (h2.1 a ha2)
          have hael : a = b := by
            rcases List.mem_cons.mp hba with h | hb2
            · exact h.symm
            · exfalso
              rw [List.map_cons, List.nodup_cons] at hnd
              exact hnd.1 (hord ▸ List.mem_map.mpr ⟨b, hb2, rfl⟩)
          subst hael
          have hnd2 : (t1.map (fun r => r.ord)).Nodup := by
            rw [List.map_cons, List.nodup_cons] at hnd
            exact hnd.2
          rw [ih hp.cons_inv h1.2 h2.2 hnd2]

theorem sortOrd_eq_of_perm {p1 p2 : List OrdRow} (hp : p1.Perm p2)
    (hnd : (p1.map (fun r => r.ord)).Nodup) :
    sortOrd p1 = sortOrd p2 :=
  eq_of_perm_sorted_distinct
    ((sortOrd_perm p1).trans (hp.trans (sortOrd_perm p2).symm))
    (sortOrd_sorted p1) (sortOrd_sorted p2)
    (((sortOrd_perm p1).map (fun r => r.ord)).nodup_iff.mpr hnd)

theorem leadPairs_rel {x : SegRow} :
    ∀ {l : List OrdRow}, x ∈ leadPairs l →
      ∃ r ∈ l, r.relation_id = x.relation_id := by
  intro l
  induction l with
  | nil => simp [leadPairs]
  | cons a t ih =>
      cases t with
      | nil => simp [leadPairs]
      | cons b t2 =>
          intro hx
          rw [leadPairs] at hx
          rcases List.mem_cons.mp hx with h | h
          · exact ⟨a, List.mem_cons_self a _, by rw [h]⟩
          · obtain ⟨r, hr, hrel⟩ := ih h
            exact ⟨r, List.mem_cons_of_mem a hr, hrel⟩

theorem seg_from_ordered {db : DB} {seg : SegRow}
    (h : seg ∈ station_way_segments db) :
    ∃ o ∈ orderedRows db, o.relation_id = seg.relation_id := by
  unfold station_way_segments station_way_segments_stream at h
  rw [List.mem_flatMap] at h
  obtain ⟨w, _, hseg⟩ := h
  obtain ⟨r, hr, hrel⟩ := leadPairs_rel hseg
  exact ⟨r, (List.mem_filter.mp (mem_sortOrd.mp hr)).1, hrel⟩

theorem ordered_rel {db : DB} {o : OrdRow} (h : o ∈ orderedRows db) :
    ∃ s ∈ station_ways_with_nodes_plus_pedestrian db,
      s.relation_id = o.relation_id := by
  unfold orderedRows at h
  rw [List.mem_flatMap] at h
  obtain ⟨s, hs, ho⟩ := h
  rw [List.mem_map] at ho
  obtain ⟨p, _, hp⟩ := ho
  exact ⟨s, hs, by rw [← hp]⟩

theorem plus_empty_of_no_member {db : DB} {rid : Int}
    (h : ∀ row ∈ station_platform_ways db,
      row.relation_id = rid → row.member_type ≠ "W") :
    ∀ row ∈ station_ways_with_nodes_plus_pedestrian db,
      row.relation_id ≠ rid := by
  intro row hrow heq
  obtain ⟨spw, hspw, hrel, hW⟩ := mem_plus_spw hrow
  exact h spw hspw (hrel.trans heq) hW

theorem stationNodes_empty_of_no_member {db : DB} {rid : Int}
    (h : ∀ row ∈ station_platform_ways db,
      row.relation_id = rid → row.member_type ≠ "W") :
    stationNodes db rid = [] := by
  unfold stationNodes
  have hf : (station_ways_with_nodes_plus_pedestrian db).filter
      (fun r => r.relation_id = rid) = [] := by
    rw [List.filter_eq_nil_iff]
    intro a ha
    simp only [decide_eq_true_eq]
    exact plus_empty_of_no_member h a ha
  rw [hf]
  rfl

theorem stationSegments_empty_of_no_member {db : DB} {rid : Int}
    (h : ∀ row ∈ station_platform_ways db,
      row.relation_id = rid → row.member_type ≠ "W") :
    stationSegments db rid = [] := by
  unfold stationSegments
  rw [List.filter_eq_nil_iff]
  intro seg hseg
  simp only [decide_eq_true_eq]
  intro heq
  obtain ⟨o, ho, horel⟩ := seg_from_ordered hseg
  obtain ⟨s, hs, hsrel⟩ := ordered_rel ho
  exact plus_empty_of_no_member h s hs (hsrel.trans (horel.trans heq))

theorem pathDist_nodes_nil {g : WalkableGraph} (hg : g.nodes = [])
    (src dst : List Int) : pathDist g src dst = none := by
  unfold pathDist
  simp [hg]

theorem adjoining_nodes_nil {g : WalkableGraph} (hg : g.nodes = [])
    (aA aD : List Int) : adjoining g aA aD = false := by
  unfold adjoining
  simp [hg]

theorem inPedView_iff (db : DB) (rid wid : Int) :
    inPedView db rid wid ↔
      ∃ w ∈ db.ways, w.id = wid ∧ claimedWalkable w.tags ∧
        ∃ s ∈ station_walkable_ways db, s.relation_id = rid ∧
          ∃ n ∈ w.nodes, n ∈ s.nodes := by
  unfold inPedView station_pedestrian_ways_with_nodes
  constructor
  · rintro ⟨row, hrow, hrel, hwid⟩
    rw [List.mem_dedup, List.mem_flatMap] at hrow
    obtain ⟨w, hw, hrow2⟩ := hrow
    by_cases hwt : walkableTags w.tags
    · rw [if_pos hwt, List.mem_map] at hrow2
      obtain ⟨s, hs, hrow3⟩ := hrow2
      rw [List.mem_filter] at hs
      obtain ⟨hs1, hs2⟩ := hs
      subst hrow3
      refine ⟨w, hw, hwid, (walkableTags_iff w.tags).mp hwt, s, hs1, hrel, ?_⟩
      simpa using hs2
    · rw [if_neg hwt] at hrow2
      simp at hrow2
  · rintro ⟨w, hw, hwid, hcw, s, hs, hsrel, n, hn, hns⟩
    refine ⟨⟨s.relation_id, s.station_name, w.id, w.nodes, w.tags⟩, ?_,
      hsrel, hwid⟩
    rw [List.mem_dedup, List.mem_flatMap]
    refine ⟨w, hw, ?_⟩
    rw [if_pos ((walkableTags_iff w.tags).mpr hcw), List.mem_map]
    refine ⟨s, List.mem_filter.mpr ⟨hs, ?_⟩, rfl⟩
    simpa using ⟨n, hn, hns⟩

theorem spn_iff (db : DB) (rid n : Int) :
    (∃ spn ∈ station_platform_nodes db,
        spn.relation_id = rid ∧ spn.node_id = n) ↔
      platformNodeOf db rid n := by
  unfold station_platform_nodes platformNodeOf
  constructor
  · rintro ⟨spn, hspn, hrel, hnode⟩
    rw [List.mem_flatMap] at hspn
    obtain ⟨spw, hspw, hspn2⟩ := hspn
    by_cases hc : spw.member_role = "platform" ∧ spw.member_type = "W"
    · rw [if_pos hc, List.mem_flatMap] at hspn2
      obtain ⟨w, hwf, hspn3⟩ := hspn2
      rw [List.mem_map] at hspn3
      obtain ⟨nd, hnd, heq⟩ := hspn3
      subst heq
      refine ⟨spw, hspw, hrel, hc.1, hc.2, w,
        (List.mem_filter.mp hwf).1, ?_, ?_⟩
      · have hf := (List.mem_filter.mp hwf).2
        simpa using hf
      · rw [← hnode]
        exact hnd
    · rw [if_neg hc] at hspn2
      simp at hspn2
  · rintro ⟨spw, hspw, hrel, hrole, htype, w, hw, hwid, hn⟩
    refine ⟨⟨spw.relation_id, spw.station_name, n⟩, ?_, hrel, rfl⟩
    rw [List.mem_flatMap]
    refine ⟨spw, hspw, ?_⟩
    rw [if_pos ⟨hrole, htype⟩, List.mem_flatMap]
    refine ⟨w, List.mem_filter.mpr ⟨hw, by simp [hwid]⟩, ?_⟩
    rw [List.mem_map]
    exact ⟨n, hn, rfl⟩

theorem pei_iff (db : DB) (rid wid : Int) :
    (∃ row ∈ platform_edges_indexed db,
        row.relation_id = rid ∧ row.way_id = wid) ↔
      ∃ w ∈ db.ways, w.id = wid ∧
        tagVal w.tags "railway" = some "platform_edge" ∧
        ∃ n ∈ w.nodes, platformNodeOf db rid n := by
  unfold platform_edges_indexed
  constructor
  · rintro ⟨row, hrow, hrel, hwid⟩
    rw [List.mem_flatMap] at hrow
    obtain ⟨w, hw, hrow2⟩ := hrow
    by_cases hrw : tagVal w.tags "railway" = some "platform_edge"
    · rw [if_pos hrw, List.mem_map] at hrow2
      obtain ⟨p, hp, heq⟩ := hrow2
      rw [List.mem_dedup, List.mem_map] at hp
      obtain ⟨spn, hspn, hpe⟩ := hp
      rw [List.mem_filter] at hspn
      subst heq
      refine ⟨w, hw, hwid, hrw, spn.node_id, by simpa using hspn.2, ?_⟩
      apply (spn_iff db rid spn.node_id).mp
      refine ⟨spn, hspn.1, ?_, rfl⟩
      rw [show spn.relation_id = (spn.relation_id, spn.station_name).1 from
        rfl, hpe]
      exact hrel
    · rw [if_neg hrw] at hrow2
      simp at hrow2
  · rintro ⟨w, hw, hwid, hrw, n, hn, hpn⟩
    obtain ⟨spn, hspn, hsrel, hsnode⟩ := (spn_iff db rid n).mpr hpn
    refine ⟨⟨spn.relation_id, spn.station_name, w.id, w.nodes, w.tags,
      tagVal w.tags "ref"⟩, ?_, hsrel, hwid⟩
    rw [List.mem_flatMap]
    refine ⟨w, hw, ?_⟩
    rw [if_pos hrw, List.mem_map]
    refine ⟨(spn.relation_id, spn.station_name), ?_, rfl⟩
    rw [List.mem_dedup, List.mem_map]
    refine ⟨spn, List.mem_filter.mpr ⟨hspn, ?_⟩, rfl⟩
    rw [hsnode]
    simpa using hn

/-- C1: a way considered by the graph builder (a member-way row) is kept by
the walkable view exactly when its tags satisfy the claimed classification —
highway in the walkable set, or railway platform/platform_edge, or a
conveying attribute, and access not private — and every such walkable row is
included in the pathfinding union. -/
theorem C1_walkable_classification (db : DB) (row : SWNRow) :
    (row ∈ station_walkable_ways db ↔
      row ∈ station_ways_with_nodes db ∧ claimedWalkable row.tags) ∧
    (row ∈ station_walkable_ways db →
      row ∈ station_ways_with_nodes_plus_pedestrian db) := by
  constructor
  · rw [station_walkable_ways, List.mem_filter, walkableTags_iff]
  · intro h
    rw [station_ways_with_nodes_plus_pedestrian, List.mem_dedup,
      List.mem_append]
    exact Or.inl h

/-- Closed instance of C1: in `exDbC1` the footway member row is walkable
and lands in the pathfinding union. -/
theorem C1_witness :
    rowC1 ∈ station_walkable_ways exDbC1 ∧
      rowC1 ∈ station_ways_with_nodes_plus_pedestrian exDbC1 := by
  have hm : rowC1 ∈ station_walkable_ways exDbC1 := by decide
  exact ⟨hm, (C1_walkable_classification exDbC1 rowC1).2 hm⟩

/-- C2 evaluated at the failing input: way 100 (nodes [1, 2]) is a walkable
member of both stop_area relations 1 and 2, so it is in station 1's
pathfinding union; yet the segment view gives station 1 the degenerate
self-pairs (1,1) and (2,2) and never the consecutive pair (1,2), because
the window partitions by `way_id` alone and interleaves the two stations'
copies. -/
theorem C2_segments_cross_station_failure :
    (⟨1, none, 100, [1, 2], [("highway", "footway")]⟩ : SWNRow) ∈
        station_ways_with_nodes_plus_pedestrian exDbC2 ∧
      (⟨1, none, 100, 1, 1⟩ : SegRow) ∈ station_way_segments exDbC2 ∧
      (⟨1, none, 100, 2, 2⟩ : SegRow) ∈ station_way_segments exDbC2 ∧
      (⟨1, none, 100, 1, 2⟩ : SegRow) ∉ station_way_segments exDbC2 := by
  decide

/-- Counterexample to C3 as stated: in `exDbC3` the walkable member way 200
is returned by the one-hop view although it IS a relation member, and the
walkable outside way 202 — a non-member sharing a node with member way 201 —
is NOT returned, because 201 is not walkable. -/
theorem C3_counterexample :
    inPedView exDbC3 7 200 ∧ ¬ claimedOneHop exDbC3 7 200 ∧
      claimedOneHop exDbC3 7 202 ∧ ¬ inPedView exDbC3 7 202 := by
  unfold inPedView claimedOneHop memberWayOf claimedWalkable
  decide

/-- C3 as amended: the one-hop expansion returns exactly the ways matching
the walkable classification that share at least one node with one of the
station's WALKABLE member ways — member ways themselves included — and
hence nothing two or more hops away from the member set. -/
theorem C3_one_hop_characterization (db : DB) (rid wid : Int) :
    inPedView db rid wid ↔
      ∃ w ∈ db.ways, w.id = wid ∧ claimedWalkable w.tags ∧
        ∃ s ∈ station_walkable_ways db, s.relation_id = rid ∧
          ∃ n ∈ w.nodes, n ∈ s.nodes :=
  inPedView_iff db rid wid

/-- C4: a `railway=platform_edge` way is attached to a station exactly when
its node array intersects the node set of that station's platform-role
member ways, and the spec's Tier-2 adjoining relation (platform edges
sharing at least one node) is symmetric. -/
theorem C4_platform_edge_attachment :
    (∀ (db : DB) (rid wid : Int),
      (∃ row ∈ platform_edges_indexed db,
          row.relation_id = rid ∧ row.way_id = wid) ↔
        ∃ w ∈ db.ways, w.id = wid ∧
          tagVal w.tags "railway" = some "platform_edge" ∧
          ∃ n ∈ w.nodes, platformNodeOf db rid n) ∧
    (∀ e1 e2 : Way, adjoins e1 e2 ↔ adjoins e2 e1) := by
  constructor
  · exact pei_iff
  · intro e1 e2
    unfold adjoins
    constructor
    · rintro ⟨n, h1, h2⟩
      exact ⟨n, h2, h1⟩
    · rintro ⟨n, h1, h2⟩
      exact ⟨n, h2, h1⟩

/-- C5: the evaluator applies the four tiers in strict order 1→4 and
reports the first tier whose condition applies, never a later one; in
particular the reported tier is 1 exactly when the same-platform condition
holds, so a same-platform input can never surface as a tier greater than
one. -/
theorem C5_tier_order (cfg : FeasConfig) (g : WalkableGraph) (pa pd : String)
    (aA aD : List Int) (w : Int) :
    ((evalTransfer cfg g pa pd aA aD w).tier = 1 ↔ pa = pd) ∧
    ((evalTransfer cfg g pa pd aA aD w).tier = 2 ↔
      pa ≠ pd ∧ adjoining g aA aD = true) ∧
    ((evalTransfer cfg g pa pd aA aD w).tier = 3 ↔
      pa ≠ pd ∧ adjoining g aA aD = false ∧
        (pathDist g aA aD).isSome = true) ∧
    ((evalTransfer cfg g pa pd aA aD w).tier = 4 ↔
      pa ≠ pd ∧ adjoining g aA aD = false ∧ pathDist g aA aD = none) := by
  by_cases hpd : pa = pd
  · simp [evalTransfer, hpd]
  · by_cases hadj : adjoining g aA aD
    · simp [evalTransfer, hpd, hadj]
    · cases hp : pathDist g aA aD with
      | some d => simp [evalTransfer, hpd, hadj, hp]
      | none => simp [evalTransfer, hpd, hadj, hp]

/-- C6 as amended: a station whose stop-area relation has an empty
member-way set (no members of type 'W', whatever other member types it may
carry) yields an empty WalkableGraph (no nodes, no segments) without error,
and feasibility evaluation on it resolves via Tier 4 whenever the two
platforms differ (a same-platform input still resolves at Tier 1). -/
theorem C6_empty_station (db : DB) (rid : Int) (cfg : FeasConfig)
    (h : ∀ row ∈ station_platform_ways db,
      row.relation_id = rid → row.member_type ≠ "W") :
    stationNodes db rid = [] ∧ stationSegments db rid = [] ∧
    ∀ (pa pd : String) (aA aD : List Int) (w : Int), pa ≠ pd →
      (evalTransfer cfg (stationGraph db rid) pa pd aA aD w).tier = 4 := by
  have hn := stationNodes_empty_of_no_member h
  have hs := stationSegments_empty_of_no_member h
  refine ⟨hn, hs, ?_⟩
  intro pa pd aA aD w hne
  have hg : (stationGraph db rid).nodes = [] := hn
  have hadj := adjoining_nodes_nil hg aA aD
  have hpath := pathDist_nodes_nil hg aA aD
  simp [evalTransfer, hne, hadj, hpath]

/-- Counterexample to C6 as stated: station 5 of `exDbC6` has an empty
member-way set (its only member is a node), yet a same-platform transfer
there resolves at Tier 1, not Tier 4 — Tier 1 never consults the graph. -/
theorem C6_same_platform_counterexample :
    (∀ row ∈ station_platform_ways exDbC6,
      row.relation_id = 5 → row.member_type ≠ "W") ∧
      (evalTransfer cfgC6 (stationGraph exDbC6 5) "1" "1" [] [] 180).tier
        = 1 ∧
      (evalTransfer cfgC6 (stationGraph exDbC6 5) "1" "1" [] [] 180).tier
        ≠ 4 := by
  decide

/-- Closed instance of C6 as amended: the empty station of `exDbC6` has an
empty graph and a cross-platform transfer there resolves at Tier 4. -/
theorem C6_witness :
    stationNodes exDbC6 5 = [] ∧ stationSegments exDbC6 5 = [] ∧
      (evalTransfer cfgC6 (stationGraph exDbC6 5) "1" "2" [] [] 180).tier
        = 4 := by
  have h : ∀ row ∈ station_platform_ways exDbC6,
      row.relation_id = 5 → row.member_type ≠ "W" := by
    decide
  obtain ⟨h1, h2, h3⟩ := C6_empty_station exDbC6 5 cfgC6 h
  exact ⟨h1, h2, h3 "1" "2" [] [] 180 (by decide)⟩

instance : IsTotal Journey journeyLE :=
  ⟨by intro a b; unfold journeyLE; omega⟩

instance : IsTrans Journey journeyLE :=
  ⟨by intro a b c hab hbc; unfold journeyLE at hab hbc ⊢; omega⟩

/-- C7: the assembler's output is sorted ascending by total duration with
ties broken by fewer changes, and no journey it returns contains an
INFEASIBLE transfer. -/
theorem C7_assembler_sorted_filtered (cands : List Journey) :
    List.Sorted journeyLE (assembleJourneys cands) ∧
    ∀ j ∈ assembleJourneys cands, Verdict.INFEASIBLE ∉ j.transfers := by
  constructor
  · exact List.sorted_insertionSort journeyLE _
  · intro j hj
    rw [assembleJourneys, List.mem_insertionSort, List.mem_filter] at hj
    simpa using hj.2

/-- Closed instance of C7 on a concrete candidate list containing an
infeasible itinerary. -/
theorem C7_witness :
    List.Sorted journeyLE (assembleJourneys candsC7) ∧
      Verdict.INFEASIBLE ∉ (⟨1800, 0, [.MARGINAL]⟩ : Journey).transfers := by
  refine ⟨(C7_assembler_sorted_filtered candsC7).1, ?_⟩
  exact (C7_assembler_sorted_filtered candsC7).2 ⟨1800, 0, [.MARGINAL]⟩
    (by decide)

/-- C8: with a response present and loading over, the `No journeys found.`
branch is taken exactly when the response carries no (truthy) error and an
empty journey list, and that branch is distinct from the error rendering. -/
theorem C8_no_journeys_branch (d : RespData) :
    (renderJourneyResults false (some d) = Render.emptyView ↔
      (d.error = none ∨ d.error = some "") ∧ d.journeys.getD [] = []) ∧
    ∀ msg, (Render.emptyView : Render) ≠ Render.errorView msg := by
  constructor
  · cases herr : d.error with
    | none =>
        simp [renderJourneyResults, jsTruthyStr, herr,
          List.isEmpty_iff]
    | some s =>
        by_cases hs : s = ""
        · subst hs
          simp [renderJourneyResults, jsTruthyStr, herr,
            List.isEmpty_iff]
        · simp [renderJourneyResults, jsTruthyStr, herr, hs,
            List.isEmpty_iff]
  · intro msg
    simp

/-- Counterexample to C9 as stated: the two builds of `exDbC2` that scan
the same ordered-row multiset in the two block orders — both legitimate
executions of the `lead()` window, whose peer order SQL leaves unspecified —
disagree on station 1's segments: the second scan emits the pair (1,2) for
station 1, the canonical one does not. Consecutive builds against an
unchanged snapshot are therefore not guaranteed identical WalkableGraphs. -/
theorem C9_counterexample :
    (orderedRows exDbC2).Perm rowsC9b ∧
      (⟨1, none, 100, 1, 2⟩ : SegRow) ∈
        station_way_segments_stream rowsC9b ∧
      (⟨1, none, 100, 1, 2⟩ : SegRow) ∉ station_way_segments exDbC2 := by
  decide

/-- C9 as amended: the built graph's segment set is independent of the scan
order — so two consecutive builds on an unchanged snapshot coincide —
provided no way's window partition carries duplicate ordinals, i.e. no way
is included for two stations; any permutation of the ordered rows then
yields exactly the canonical build's segments. -/
theorem C9_segments_scan_invariance (db : DB) (rowsB : List OrdRow)
    (hperm : (orderedRows db).Perm rowsB)
    (hdist : ∀ wid ∈ (orderedRows db).map (fun r => r.way_id),
      (((orderedRows db).filter (fun r => r.way_id = wid)).map
          (fun r => r.ord)).Nodup) :
    ∀ seg : SegRow, seg ∈ station_way_segments db ↔
      seg ∈ station_way_segments_stream rowsB := by
  intro seg
  have hkey : ∀ wid ∈ (orderedRows db).map (fun r => r.way_id),
      sortOrd ((orderedRows db).filter (fun r => r.way_id = wid)) =
        sortOrd (rowsB.filter (fun r => r.way_id = wid)) := by
    intro wid hwid
    exact sortOrd_eq_of_perm (hperm.filter _) (hdist wid hwid)
  unfold station_way_segments station_way_segments_stream
  rw [List.mem_flatMap, List.mem_flatMap]
  constructor
  · rintro ⟨wid, hwid, hseg⟩
    rw [List.mem_dedup] at hwid
    refine ⟨wid, ?_, ?_⟩
    · rw [List.mem_dedup]
      exact (hperm.map (fun r => r.way_id)).subset hwid
    · rw [← hkey wid hwid]
      exact hseg
  · rintro ⟨wid, hwid, hseg⟩
    rw [List.mem_dedup] at hwid
    have hwidA : wid ∈ (orderedRows db).map (fun r => r.way_id) :=
      (hperm.map (fun r => r.way_id)).symm.subset hwid
    refine ⟨wid, ?_, ?_⟩
    · rw [List.mem_dedup]
      exact hwidA
    · rw [hkey wid hwidA]
      exact hseg

/-- Closed instance of C9 as amended: a reversed scan of the single-station
snapshot `exDbC9` agrees with the canonical build on a concrete segment. -/
theorem C9_witness :
    (⟨8, none, 500, 1, 2⟩ : SegRow) ∈ station_way_segments exDbC9 ↔
      (⟨8, none, 500, 1, 2⟩ : SegRow) ∈
        station_way_segments_stream rowsC9w :=
  C9_segments_scan_invariance exDbC9 rowsC9w (by decide) (by decide) _

/-- Counterexample to C10 as stated: with the dropdown already open, a
two-character input whose fetch returns a non-ok response leaves the
dropdown shown although the response is not a non-empty station list. -/
theorem C10_counterexample :
    (handleChange ⟨true, []⟩ "ab" .httpError).showDropdown = true ∧
      ∀ data : List Station,
        FetchOutcome.httpError ≠ FetchOutcome.ok data := by
  refine ⟨by decide, ?_⟩
  intro data h
  exact FetchOutcome.noConfusion h

/-- C10 as amended: an input shorter than two characters issues no request,
hides the dropdown and still calls the completion callback; for longer
inputs an ok response shows the dropdown exactly when the station list is
non-empty, while a failed request leaves the dropdown unchanged and still
calls the completion callback. -/
theorem C10_handle_change (prev : AcState) (value : String) :
    (value.length < 2 → ∀ resp : FetchOutcome,
      (handleChange prev value resp).requestIssued = false ∧
        (handleChange prev value resp).showDropdown = false ∧
        (handleChange prev value resp).completionCalled = true) ∧
    (2 ≤ value.length → ∀ data : List Station,
      ((handleChange prev value (.ok data)).showDropdown = true ↔
        0 < data.length)) ∧
    (2 ≤ value.length →
      (handleChange prev value .httpError).showDropdown =
          prev.showDropdown ∧
        (handleChange prev value .netError).showDropdown =
          prev.showDropdown ∧
        (handleChange prev value .httpError).completionCalled = true ∧
        (handleChange prev value .netError).completionCalled = true) := by
  refine ⟨?_, ?_, ?_⟩
  · intro h resp
    simp [handleChange, h]
  · intro h data
    simp [handleChange, Nat.not_lt.mpr h]
  · intro h
    simp [handleChange, Nat.not_lt.mpr h]

/-- Closed instance of C10 as amended at concrete inputs. -/
theorem C10_witness :
    ((handleChange ⟨false, []⟩ "a" .netError).requestIssued = false ∧
      (handleChange ⟨false, []⟩ "a" .netError).showDropdown = false ∧
      (handleChange ⟨false, []⟩ "a" .netError).completionCalled = true) ∧
    ((handleChange ⟨false, []⟩ "ab"
        (.ok [⟨1, "Aachen"⟩])).showDropdown = true ↔
      0 < ([⟨1, "Aachen"⟩] : List Station).length) ∧
    (handleChange ⟨true, []⟩ "ab" .netError).showDropdown = true := by
  refine ⟨(C10_handle_change ⟨false, []⟩ "a").1 (by decide) .netError,
    (C10_handle_change ⟨false, []⟩ "ab").2.1 (by decide) _, ?_⟩
  exact ((C10_handle_change ⟨true, []⟩ "ab").2.2 (by decide)).2.1

end Transfr
